import Mathlib

/- Formal model of the table-extraction core of the Kworb Spotify chart
   scraper (src/src/scraper.py, src/src/kworb_scraper.py,
   src/src/ui/streamlit_app.py).  Python strings are modelled as lists of
   characters; browser-automation effects (Selenium waits, page loads,
   logging, file output) are abstracted into pure functions over the cell
   texts they produce, and Python exceptions are modelled with Option and
   Except.  Every definition follows the cited Python source line by line;
   deviations are noted in the doc comments. -/

/-- Python strings are modelled as lists of characters. -/
abbrev Str := List Char

/-- View a Lean string literal as the character-list model of a Python string. -/
def str (s : String) : Str := s.data

/-- Horner fold giving the numeric value of a most-significant-first decimal
digit string, as Python int() computes it. -/
def digitsToNat (s : Str) : Nat := s.foldl (fun acc c => acc * 10 + (c.toNat - 48)) 0

/-- Non-empty all-decimal-digit test, the shape of string Python int() accepts
after sign and whitespace handling. -/
def isDigits (s : Str) : Bool := !s.isEmpty && s.all Char.isDigit

/-- Python str.strip(): remove leading and trailing whitespace. -/
def pyStrip (s : Str) : Str :=
  ((s.dropWhile Char.isWhitespace).reverse.dropWhile Char.isWhitespace).reverse

/-- Python int(s) on a decimal string: optional surrounding whitespace, an
optional single sign, then decimal digits; any other shape raises ValueError,
modelled as none.  (Digit-group underscores, legal in Python source literals
but never present in chart cells, are not modelled.) -/
def pyInt (s : Str) : Option Int :=
  let t := pyStrip s
  if t.headD ' ' = '-' then
    if isDigits t.tail then some (-(digitsToNat t.tail : Int)) else none
  else if t.headD ' ' = '+' then
    if isDigits t.tail then some ((digitsToNat t.tail : Int)) else none
  else if isDigits t then some ((digitsToNat t : Int)) else none

/-- Python s.replace(",", ""): remove every comma. -/
def stripCommas (s : Str) : Str := s.filter (fun c => c != ',')

/-- ChartScraper parse number (src/src/scraper.py lines 253-260):
the placeholder dash and the empty (falsy) string give None; otherwise
int(value.replace(",", "")), with ValueError/AttributeError giving None. -/
def parse_number (value : Str) : Option Int :=
  if value = str "--" ∨ value = [] then none
  else pyInt (stripCommas value)

/-- KworbScraper.extract_streams stream-cell cleaning
(src/src/kworb_scraper.py line 205):
streams = int(streams.replace(",", "")) if streams != "--" else 0.
A none result models the ValueError that makes the surrounding row be
skipped by the except clause at lines 214-216. -/
def kworb_clean_streams (s : Str) : Option Int :=
  if s = str "--" then some 0
  else pyInt (stripCommas s)

/-- Specification-side value of a decimal digit string, written with the
positional-notation primitive of the library rather than the Horner loop of
the code, for comparison against parse number. -/
def specDigitsValue (s : Str) : Nat :=
  Nat.ofDigits 10 ((s.map (fun c => c.toNat - 48)).reverse)

/-- Boolean success test for the Except values modelling Python try blocks. -/
def exceptOk {ε α : Type} : Except ε α → Bool
  | .ok _ => true
  | .error _ => false

/-- Retry loop body of KworbScraper.extract_streams
(src/src/kworb_scraper.py lines 145-230): for attempt in range(retry count),
run one full navigate-locate-extract attempt (abstracted as attemptFn, whose
Except models any exception raised inside the try block); on success return
the data at once, on failure sleep and move to the next attempt, and when the
budget is spent record the error and return None.  The second component
counts the attempts actually used. -/
def retryGo {α : Type} (attemptFn : Nat → Except Str α) : Nat → Nat → Option α × Nat
  | 0, used => (none, used)
  | n + 1, used =>
    match attemptFn used with
    | .ok a => (some a, used + 1)
    | .error _ => retryGo attemptFn n (used + 1)

/-- Entry point of the retry driver: attempts are numbered from 0 and the
budget is retry count (constructor default 3). -/
def extract_streams_retry {α : Type} (attemptFn : Nat → Except Str α)
    (retry_count : Nat) : Option α × Nat :=
  retryGo attemptFn retry_count 0

/-- Multi-strategy locator KworbScraper.wait_for_element
(src/src/kworb_scraper.py lines 82-113): try each locator of the chain in
order with its own bounded wait; tryLocator abstracts one bounded wait,
returning none when the wait raises Timeout/NoSuchElement/Stale.  The first
match is returned immediately; if every locator fails the result is none,
not an exception.  The fallback loop over table locators in
ChartScraper.scrape_track_history (src/src/scraper.py lines 469-487) has the
same shape with find element safely as the per-strategy wait. -/
def wait_for_element {α β : Type} (tryLocator : α → Option β) : List α → Option β
  | [] => none
  | l :: ls =>
    match tryLocator l with
    | some e => some e
    | none => wait_for_element tryLocator ls

/-- Insertion step of the sorting model (the claims only depend on
sortedness and membership of the pandas sort, not on its tie order). -/
def insertBy {α : Type} (le : α → α → Bool) (a : α) : List α → List α
  | [] => [a]
  | b :: bs => if le a b then a :: b :: bs else b :: insertBy le a bs

/-- Insertion sort used to model sorted() of Python and sort values of
pandas; it places elements so that le holds along the output. -/
def insSortBy {α : Type} (le : α → α → Bool) (l : List α) : List α :=
  l.foldr (insertBy le) []

/-- Lexicographic string comparison by code point, as Python compares str
values (and hence as pandas orders an object-dtype column). -/
def lexLe : Str → Str → Bool
  | [], _ => true
  | _ :: _, [] => false
  | a :: as, b :: bs => if a < b then true else if b < a then false else lexLe as bs

/-- One extracted row of a per-track table: the date cell text plus one
(column name, parsed count) pair per non-Date header, in header order.
Cell and header inputs of the extraction model stand for the already
stripped .text values of the DOM elements. -/
structure TrackRec where
  date : Str
  vals : List (Str × Option Int)
deriving DecidableEq

/-- Date-column lookup of ChartScraper.scrape_track_history
(src/src/scraper.py lines 507-511): headers.index("Date"), and on
ValueError the fallback date idx = 0 with only a logged warning. -/
def find_date_idx (headers : List Str) : Nat :=
  (headers.findIdx? (fun h => h == str "Date")).getD 0

/-- Per-row value extraction of scrape_track_history (lines 530-533): for
each indexed header other than Date, parse the cell at the header position.
The getD default is never reached because the caller only passes rows with
at least headers.length cells. -/
def trackRowVals (headers : List Str) (cells : List Str) : List (Str × Option Int) :=
  headers.enum.filterMap (fun p =>
    if p.2 = str "Date" then none
    else some (p.2, parse_number ((cells[p.1]?).getD [])))

/-- Row acceptance of scrape_track_history (lines 518-540): a row with
fewer cells than headers is skipped; otherwise the date cell is read (an
out-of-range date index raises IndexError, caught by the except and
skipping the row) and every non-Date header position is parsed. -/
def processRow (headers : List Str) (dateIdx : Nat) (cells : List Str) : Option TrackRec :=
  if cells.length < headers.length then none
  else
    match cells[dateIdx]? with
    | none => none
    | some dv => some ⟨dv, trackRowVals headers cells⟩

/-- Row loop of scrape_track_history: data rows in table order, each
processed with processRow, skipped rows discarded. -/
def scrape_rows (headers : List Str) (rows : List (List Str)) : List TrackRec :=
  rows.filterMap (processRow headers (find_date_idx headers))

/-- Sentinel test of line 557: df date isin(["Total", "Peak"]). -/
def isSentinelDate (d : Str) : Bool := d == str "Total" || d == str "Peak"

/-- Descending comparison on record dates used to model
sort values("date", ascending=False) at line 559. -/
def trackGe (a b : TrackRec) : Bool := lexLe b.date a.date

/-- Ordering step of scrape_track_history (lines 556-562): the Total/Peak
rows in table order, then the remaining rows sorted descending by date. -/
def order_track_records (recs : List TrackRec) : List TrackRec :=
  recs.filter (fun r => isSentinelDate r.date) ++
    insSortBy trackGe (recs.filter (fun r => !isSentinelDate r.date))

/-- Helper: all splitting in the model goes through this fuel-driven scan,
the fuel being an upper bound on the scanned length; pySplit always supplies
enough fuel, so the fuel-exhausted branch is unreachable. -/
def splitGo (sep : Str) : Nat → Str → Str → List Str
  | 0, cur, rest => [cur.reverse ++ rest]
  | f + 1, cur, s =>
    if sep.isPrefixOf s then
      cur.reverse :: splitGo sep f [] (s.drop sep.length)
    else
      match s with
      | [] => [cur.reverse]
      | c :: rest => splitGo sep f (c :: cur) rest

/-- Python s.split(sep) for a non-empty separator: left-to-right scan over
non-overlapping occurrences.  (Python raises on an empty separator; the
model is never applied to one.) -/
def pySplit (sep s : Str) : List Str := splitGo sep (s.length + 1) [] s

/-- Python first element l[0] of a split result (always non-empty). -/
def pyFirst (l : List Str) : Str := l.headD []

/-- Python last element l[-1] of a split result (always non-empty). -/
def pyLast (l : List Str) : Str := l.getLastD []

/-- Python substring test pat in s, for a non-empty pattern. -/
def containsSub (pat : Str) : Str → Bool
  | [] => pat.isPrefixOf ([] : Str)
  | c :: rest => pat.isPrefixOf (c :: rest) || containsSub pat rest

/-- Model of datetime.strptime(s, "%Y/%m/%d"): three slash-separated digit
groups of bounded width, month in 1..12, day in 1..31, year at least 1.
(The exact per-month day ceiling enforced by the datetime constructor is
not modelled; no claim depends on it.) -/
def parseYMDparts (s : Str) : Option (Nat × Nat × Nat) :=
  match pySplit (str "/") s with
  | [ys, ms, ds] =>
    if isDigits ys ∧ ys.length ≤ 4 ∧ isDigits ms ∧ ms.length ≤ 2
        ∧ isDigits ds ∧ ds.length ≤ 2 then
      let y := digitsToNat ys
      let m := digitsToNat ms
      let d := digitsToNat ds
      if 1 ≤ y ∧ 1 ≤ m ∧ m ≤ 12 ∧ 1 ≤ d ∧ d ≤ 31 then some (y, m, d) else none
    else none
  | _ => none

/-- Zero padding of strftime field rendering. -/
def padZeros (w : Nat) (s : Str) : Str := List.replicate (w - s.length) '0' ++ s

/-- Model of strftime("%Y/%m/%d"). -/
def fmtYMD (y m d : Nat) : Str :=
  padZeros 4 (Nat.toDigits 10 y) ++ str "/" ++ padZeros 2 (Nat.toDigits 10 m)
    ++ str "/" ++ padZeros 2 (Nat.toDigits 10 d)

/-- ChartScraper parse date (src/src/scraper.py lines 262-268): reparse and
reformat a %Y/%m/%d date, returning the input unchanged when strptime
raises ValueError (e.g. on the Total and Peak sentinels). -/
def parse_date (s : Str) : Str :=
  match parseYMDparts s with
  | some (y, m, d) => fmtYMD y m d
  | none => s

/-- Whole per-track table extraction of scrape_track_history: read rows
under the header schema, apply parse date to the date column, then order
sentinels first and the rest descending by date. -/
def scrape_track_table (headers : List Str) (rows : List (List Str)) : List TrackRec :=
  order_track_records
    ((scrape_rows headers rows).map (fun r => ⟨parse_date r.date, r.vals⟩))

/-- One output record of KworbScraper.extract_streams (track identity
fields omitted: they are constants of the surrounding call). -/
structure KworbRec where
  date : Str
  streams : Int
deriving DecidableEq

/-- Python str.lower restricted to the per-character mapping (sufficient
for the ASCII cell texts compared against total and peak). -/
def pyLower (s : Str) : Str := s.map Char.toLower

/-- Header check of KworbScraper.extract_streams
(src/src/kworb_scraper.py lines 182-187): headers.index("Date") and
headers.index("Global"); a ValueError from either becomes the
NoSuchElementException failing this attempt. -/
def kworb_header_check (headers : List Str) : Except Str (Nat × Nat) :=
  match headers.findIdx? (fun h => h == str "Date"),
      headers.findIdx? (fun h => h == str "Global") with
  | some d, some g => Except.ok (d, g)
  | _, _ => Except.error (str "Required columns not found in table")

/-- Row processing of extract_streams (lines 191-216): skip empty rows,
read the date and the Global cell (IndexError skips the row), skip rows
whose lower-cased date is total or peak, clean the stream count (ValueError
skips the row). -/
def kworb_process_row (dateIdx globalIdx : Nat) (cells : List Str) : Option KworbRec :=
  if cells.isEmpty then none
  else
    match cells[dateIdx]?, cells[globalIdx]? with
    | some date, some streams =>
      if pyLower date == str "total" || pyLower date == str "peak" then none
      else
        match kworb_clean_streams streams with
        | some n => some ⟨date, n⟩
        | none => none
    | _, _ => none

/-- Data loop of extract_streams: rows kept in table order, no sorting. -/
def kworb_extract_rows (dateIdx globalIdx : Nat) (rows : List (List Str)) : List KworbRec :=
  rows.filterMap (kworb_process_row dateIdx globalIdx)

/-- One cell of a per-date DataFrame: pandas NaN/None is null. -/
inductive Cell where
  | null : Cell
  | intVal : Int → Cell
  | strVal : Str → Cell
deriving DecidableEq

/-- One per-date DataFrame: an ordered column list and positional rows. -/
structure Batch where
  cols : List Str
  rows : List (List Cell)
deriving DecidableEq

/-- Value of a row at a named column, null when the column is absent (how
pandas reindexing fills cells of frames lacking a column). -/
def cellOf (cols : List Str) (row : List Cell) (c : Str) : Cell :=
  match cols.findIdx? (fun x => x == c) with
  | some i => row.getD i Cell.null
  | none => Cell.null

/-- Column union in first-seen order, as pd.concat aligns columns. -/
def unionCols (batches : List Batch) : List Str :=
  batches.foldl (fun acc b => acc ++ b.cols.filter (fun c => !acc.contains c)) []

/-- Model of pd.concat(all_data) at src/src/scraper.py line 704: the union
of the batch columns in first-seen order, every row reindexed to it with
null in the positions its source batch lacked. -/
def concatBatches (batches : List Batch) : Batch :=
  let cols := unionCols batches
  ⟨cols, (batches.map (fun b => b.rows.map (fun r => cols.map (cellOf b.cols r)))).flatten⟩

/-- Fixed pre-declared output schema of scrape_date_range
(src/src/scraper.py lines 707-708). -/
def column_order : List Str :=
  [str "chart_date", str "Global", str "US", str "PH", str "GB", str "CA", str "ID",
   str "AU", str "MY", str "IE", str "SG", str "NO", str "AR", str "NZ", str "CL",
   str "AE", str "PE", str "PT", str "NL", str "SE", str "FI", str "CR"]

/-- Lines 710-713: every column of the fixed schema missing from the
combined frame is added with None values. -/
def addMissingCols (b : Batch) : Batch :=
  let missing := column_order.filter (fun c => !b.cols.contains c)
  ⟨b.cols ++ missing, b.rows.map (fun r => r ++ missing.map (fun _ => Cell.null))⟩

/-- Line 716: combined df[column_order], reordering to the fixed schema and
dropping every column outside it. -/
def selectCols (b : Batch) (cs : List Str) : Batch :=
  ⟨cs, b.rows.map (fun r => cs.map (cellOf b.cols r))⟩

/-- Column normalization of scrape_date_range (lines 703-716): concatenate
the per-date batches, add the missing fixed columns, select the fixed
schema. -/
def scrape_date_range_merge (batches : List Batch) : Batch :=
  selectCols (addMissingCols (concatBatches batches)) column_order

/-- Orchestration skeleton of scrape_date_range (lines 642-704): each date
is attempted (extract abstracts the per-date try block, none meaning the
caught exception at lines 696-698 that skips the date); when no date
yielded data the orchestrator raises ScrapingError, else it merges. -/
def scrape_date_range_model (extract : Nat → Option Batch) (dates : List Nat) :
    Except Str Batch :=
  if (dates.filterMap extract).isEmpty then
    Except.error (str "No data scraped for the specified date range")
  else Except.ok (scrape_date_range_merge (dates.filterMap extract))

/-- Python str.isalnum (the chart identifiers are ASCII, so the ASCII
alphanumeric test coincides with the Python one on every relevant input). -/
def pyIsAlnum (s : Str) : Bool := !s.isEmpty && s.all Char.isAlphanum

/-- Track-id validation shared by scrape_track_history (line 373) and
extract_track_id (line 62): track id.replace("-", "").isalnum(). -/
def track_id_valid (t : Str) : Bool := pyIsAlnum (t.filter (fun c => c != '-'))

/-- Track-id cleaning of scrape_track_history (src/src/scraper.py lines
362-370): strip query and whitespace, then cut the bare token out of a
spotify URL, a spotify URI, or a kworb URL. -/
def clean_track_id (input : Str) : Str :=
  let t := pyStrip (pyFirst (pySplit (str "?") input))
  if containsSub (str "spotify.com/track/") t then
    pyFirst (pySplit (str "/") (pyFirst (pySplit (str "?") (pyLast (pySplit (str "track/") t)))))
  else if containsSub (str "spotify:track:") t then
    pyFirst (pySplit (str "?") (pyLast (pySplit (str "spotify:track:") t)))
  else if containsSub (str "kworb.net/spotify/track/") t then
    pyFirst (pySplit (str ".") (pyLast (pySplit (str "track/") t)))
  else t

/-- Input gate of scrape_track_history (lines 356-375): an empty input is
rejected at once; otherwise the cleaned id is validated, and some id means
the scrape goes on to fetch the page while none means it returns an empty
DataFrame without fetching. -/
def scrape_track_gate (input : Str) : Option Str :=
  if input.isEmpty then none
  else
    let t := clean_track_id input
    if track_id_valid t then some t else none

/-- extract_track_id of the UI (src/src/ui/streamlit_app.py lines 36-66):
same three URL forms, with the bare-token branch stripping the query, and
an invalid token mapped to the empty string. -/
def extract_track_id_app (url : Str) : Str :=
  if url.isEmpty then []
  else
    let u := pyStrip url
    let tid :=
      if containsSub (str "spotify.com/track/") u then
        pyFirst (pySplit (str "/") (pyFirst (pySplit (str "?") (pyLast (pySplit (str "track/") u)))))
      else if containsSub (str "spotify:track:") u then
        pyFirst (pySplit (str "?") (pyLast (pySplit (str "spotify:track:") u)))
      else if containsSub (str "kworb.net/spotify/track/") u then
        pyFirst (pySplit (str ".") (pyLast (pySplit (str "track/") u)))
      else pyStrip (pyFirst (pySplit (str "?") u))
    let tid := pyStrip tid
    if track_id_valid tid then tid else []

/-- Specification-side acceptance predicate, written from the words of the
claim: the token is alphanumeric with optional hyphens and has alphanumeric
content. -/
def specTokenOK (t : Str) : Prop :=
  (∃ c ∈ t, c ≠ '-') ∧ ∀ c ∈ t, c.isAlphanum = true ∨ c = '-'

/-- Order-preserving encoding of a calendar date (the parser bounds give
year at most 9999, month at most 12, day at most 31, so the encoding is
strictly monotone in the lexicographic date order that sorted() uses on
datetime values). -/
def dateEnc (p : Nat × Nat × Nat) : Nat := p.1 * 10000 + p.2.1 * 100 + p.2.2

/-- Boolean order on encoded dates. -/
def natLeB (a b : Nat) : Bool := a ≤ b

/-- ChartScraper.discover_available_weeks (src/src/scraper.py lines
575-616) after the page fetch: parse each anchor text (stripped) as a
%Y/%m/%d date, keeping the parseable ones; when none parse (including the
table-missing case, which yields no anchors) fall back to the single
current date; return the dates sorted ascending. -/
def discover_available_weeks (linkTexts : List Str) (now : Nat) : List Nat :=
  insSortBy natLeB
    (if (linkTexts.filterMap (fun l => (parseYMDparts (pyStrip l)).map dateEnc)).isEmpty
     then [now]
     else linkTexts.filterMap (fun l => (parseYMDparts (pyStrip l)).map dateEnc))

/- ------------------------------------------------------------------ -/
/- Supporting lemmas -/
/- ------------------------------------------------------------------ -/

theorem digit_not_ws (c : Char) (h : c.isDigit = true) : c.isWhitespace = false := by
  revert h
  simp only [Char.isDigit, Char.isWhitespace, Bool.and_eq_true, decide_eq_true_eq]
  intro h
  simp only [Bool.or_eq_false_iff, decide_eq_false_iff_not]
  refine ⟨⟨⟨?_, ?_⟩, ?_⟩, ?_⟩ <;> rintro rfl <;> revert h <;> decide

theorem digit_ne_of_not_digit (c d : Char) (hd : d.isDigit = false)
    (h : c.isDigit = true) : c ≠ d := by
  rintro rfl
  rw [h] at hd
  exact Bool.noConfusion hd

theorem dropWhile_ws_of_digits (t : Str) (h : t.all Char.isDigit = true) :
    t.dropWhile Char.isWhitespace = t := by
  cases t with
  | nil => rfl
  | cons c rest =>
    rw [List.all_cons, Bool.and_eq_true] at h
    rw [List.dropWhile_cons, if_neg]
    rw [digit_not_ws c h.1]
    exact Bool.noConfusion

theorem pyStrip_of_digits (t : Str) (h : t.all Char.isDigit = true) :
    pyStrip t = t := by
  unfold pyStrip
  rw [dropWhile_ws_of_digits t h,
    dropWhile_ws_of_digits t.reverse (by rwa [List.all_reverse]),
    List.reverse_reverse]

theorem pyInt_of_digits (t : Str) (h : isDigits t = true) :
    pyInt t = some ((digitsToNat t : Int)) := by
  have hall : t.all Char.isDigit = true := by
    rw [isDigits, Bool.and_eq_true] at h
    exact h.2
  have hne : t ≠ [] := by
    rw [isDigits, Bool.and_eq_true] at h
    intro he
    rw [he] at h
    exact Bool.noConfusion h.1
  unfold pyInt
  rw [pyStrip_of_digits t hall]
  obtain ⟨c, rest, rfl⟩ : ∃ c rest, t = c :: rest := by
    cases t with
    | nil => exact absurd rfl hne
    | cons c rest => exact ⟨c, rest, rfl⟩
  have hc : c.isDigit = true := by
    rw [List.all_cons, Bool.and_eq_true] at hall
    exact hall.1
  simp only [List.headD_cons]
  rw [if_neg (by simpa using digit_ne_of_not_digit c '-' (by decide) hc)]
  rw [if_neg (by simpa using digit_ne_of_not_digit c '+' (by decide) hc)]
  rw [if_pos h]

theorem digitsToNat_foldl (l : Str) : ∀ acc : Nat,
    l.foldl (fun acc c => acc * 10 + (c.toNat - 48)) acc
      = acc * 10 ^ l.length + Nat.ofDigits 10 ((l.map (fun c => c.toNat - 48)).reverse) := by
  induction l with
  | nil => intro acc; simp [Nat.ofDigits_nil]
  | cons c l ih =>
    intro acc
    rw [List.foldl_cons, ih, List.map_cons, List.reverse_cons, Nat.ofDigits_append]
    simp only [List.length_cons, List.length_reverse, List.length_map,
      Nat.ofDigits_cons, Nat.ofDigits_nil]
    ring

theorem digitsToNat_eq_spec (s : Str) : digitsToNat s = specDigitsValue s := by
  rw [digitsToNat, specDigitsValue, digitsToNat_foldl s 0]
  simp

/- ------------------------------------------------------------------ -/
/- C1: placeholder and thousands-separator parsing -/
/- ------------------------------------------------------------------ -/

/-- C1, counterexample.  The claim states that in every extraction path a
"--" cell parses to null, never zero.  In the KworbScraper.extract_streams
path a "--" Global cell is cleaned to the integer 0 and the row is kept
with streams = 0, while ChartScraper gives null for the same text. -/
theorem c1_number_parsing_counterexample :
    kworb_clean_streams (str "--") = some 0 ∧
    kworb_extract_rows 0 1 [[str "2024/01/01", str "--"]]
      = [⟨str "2024/01/01", 0⟩] ∧
    parse_number (str "--") = none := by
  refine ⟨by decide, ?_, by decide⟩
  decide

/-- C1, amended.  In the ChartScraper parse number path, the placeholder
"--" and the empty string parse to null (never zero), and any string whose
comma-stripped form is a digit string parses to the positional value of the
stripped digits; in the KworbScraper.extract_streams path, however, "--"
is cleaned to 0, and the empty string there raises ValueError, dropping
the row, rather than yielding null. -/
theorem c1_number_parsing (s : Str) (hne : s ≠ []) (hnd : s ≠ str "--")
    (hd : isDigits (stripCommas s) = true) :
    parse_number s = some ((specDigitsValue (stripCommas s) : Int)) ∧
    parse_number (str "--") = none ∧
    parse_number [] = none ∧
    kworb_clean_streams (str "--") = some 0 ∧
    kworb_clean_streams [] = none := by
  refine ⟨?_, by decide, by decide, by decide, by decide⟩
  rw [parse_number, if_neg (by push_neg; exact ⟨hnd, hne⟩)]
  rw [pyInt_of_digits _ hd, digitsToNat_eq_spec]

/-- C1, witness: the example of the claim, "1,234,567" parses to 1234567. -/
theorem c1_number_parsing_witness :
    parse_number (str "1,234,567") = some 1234567 := by
  have h := (c1_number_parsing (str "1,234,567") (by decide) (by decide) (by decide)).1
  rw [h]
  decide

theorem mem_insertBy {α : Type} (le : α → α → Bool) (a x : α) :
    ∀ l : List α, x ∈ insertBy le a l ↔ x = a ∨ x ∈ l := by
  intro l
  induction l with
  | nil => simp [insertBy]
  | cons b bs ih =>
    rw [insertBy]
    by_cases h : le a b = true
    · rw [if_pos h]
      simp only [List.mem_cons]
    · rw [if_neg h]
      simp only [List.mem_cons, ih]
      tauto

theorem pairwise_insertBy {α : Type} (le : α → α → Bool)
    (total : ∀ x y, le x y = true ∨ le y x = true)
    (htrans : ∀ x y z, le x y = true → le y z = true → le x z = true)
    (a : α) : ∀ l : List α, l.Pairwise (fun x y => le x y = true) →
      (insertBy le a l).Pairwise (fun x y => le x y = true) := by
  intro l
  induction l with
  | nil =>
    intro _
    simp [insertBy]
  | cons b bs ih =>
    intro hp
    rw [List.pairwise_cons] at hp
    obtain ⟨hb, hbs⟩ := hp
    rw [insertBy]
    by_cases h : le a b = true
    · rw [if_pos h, List.pairwise_cons]
      refine ⟨?_, List.pairwise_cons.mpr ⟨hb, hbs⟩⟩
      intro x hx
      rcases List.mem_cons.mp hx with rfl | hxbs
      · exact h
      · exact htrans a b x h (hb x hxbs)
    · rw [if_neg h, List.pairwise_cons]
      refine ⟨?_, ih hbs⟩
      intro x hx
      rcases (mem_insertBy le a x bs).mp hx with hxa | hxbs
      · rw [hxa]
        rcases total a b with hab | hba
        · exact absurd hab h
        · exact hba
      · exact hb x hxbs

theorem pairwise_insSortBy {α : Type} (le : α → α → Bool)
    (total : ∀ x y, le x y = true ∨ le y x = true)
    (htrans : ∀ x y z, le x y = true → le y z = true → le x z = true) :
    ∀ l : List α, (insSortBy le l).Pairwise (fun x y => le x y = true) := by
  intro l
  induction l with
  | nil => simp [insSortBy]
  | cons a l ih => exact pairwise_insertBy le total htrans a _ ih

theorem mem_insSortBy {α : Type} (le : α → α → Bool) (x : α) :
    ∀ l : List α, x ∈ insSortBy le l ↔ x ∈ l := by
  intro l
  induction l with
  | nil => simp [insSortBy]
  | cons a as ih =>
    show x ∈ insertBy le a (insSortBy le as) ↔ _
    rw [mem_insertBy, ih, List.mem_cons]

theorem length_insertBy {α : Type} (le : α → α → Bool) (a : α) :
    ∀ l : List α, (insertBy le a l).length = l.length + 1 := by
  intro l
  induction l with
  | nil => rfl
  | cons b bs ih =>
    rw [insertBy]
    by_cases h : le a b = true
    · rw [if_pos h]
      rfl
    · rw [if_neg h]
      simp [ih]

theorem length_insSortBy {α : Type} (le : α → α → Bool) :
    ∀ l : List α, (insSortBy le l).length = l.length := by
  intro l
  induction l with
  | nil => rfl
  | cons a as ih =>
    show (insertBy le a (insSortBy le as)).length = _
    rw [length_insertBy, ih, List.length_cons]

theorem lexLe_total : ∀ s t : Str, lexLe s t = true ∨ lexLe t s = true := by
  intro s
  induction s with
  | nil =>
    intro t
    left
    rfl
  | cons a as ih =>
    intro t
    cases t with
    | nil =>
      right
      rfl
    | cons b bs =>
      rw [lexLe, lexLe]
      rcases lt_trichotomy a b with h | h | h
      · left
        rw [if_pos h]
      · subst h
        rcases ih bs with h1 | h1
        · left
          rw [if_neg (lt_irrefl a), if_neg (lt_irrefl a)]
          exact h1
        · right
          rw [if_neg (lt_irrefl a), if_neg (lt_irrefl a)]
          exact h1
      · right
        rw [if_pos h]

theorem lexLe_trans : ∀ s t u : Str, lexLe s t = true → lexLe t u = true →
    lexLe s u = true := by
  intro s
  induction s with
  | nil => intro t u _ _; rfl
  | cons a as ih =>
    intro t u h1 h2
    cases t with
    | nil =>
      simp only [lexLe] at h1
      exact Bool.noConfusion h1
    | cons b bs =>
      cases u with
      | nil =>
        simp only [lexLe] at h2
        exact Bool.noConfusion h2
      | cons c cs =>
        rw [lexLe] at h1 h2 ⊢
        rcases lt_trichotomy a b with hab | hab | hab
        · rcases lt_trichotomy b c with hbc | hbc | hbc
          · rw [if_pos (lt_trans hab hbc)]
          · subst hbc
            rw [if_pos hab]
          · rw [if_neg (asymm hbc), if_pos hbc] at h2
            exact Bool.noConfusion h2
        · subst hab
          rcases lt_trichotomy a c with hac | hac | hac
          · rw [if_pos hac]
          · subst hac
            rw [if_neg (lt_irrefl a), if_neg (lt_irrefl a)] at h1 h2 ⊢
            exact ih bs cs h1 h2
          · rw [if_neg (asymm hac), if_pos hac] at h2
            exact Bool.noConfusion h2
        · rw [if_neg (asymm hab), if_pos hab] at h1
          exact Bool.noConfusion h1

theorem kworb_process_row_no_sentinel (dIdx gIdx : Nat) (cells : List Str)
    (r : KworbRec) (h : kworb_process_row dIdx gIdx cells = some r) :
    (pyLower r.date == str "total" || pyLower r.date == str "peak") = false := by
  rw [kworb_process_row] at h
  split at h
  · exact Option.noConfusion h
  · split at h
    · rename_i date streams hd hg
      split at h
      · exact Option.noConfusion h
      · rename_i hcond
        split at h
        · rename_i n hn
          obtain rfl : KworbRec.mk date n = r := Option.some_injective _ h
          simpa using hcond
        · exact Option.noConfusion h
    · exact Option.noConfusion h

/- ------------------------------------------------------------------ -/
/- C3: sentinel segregation and date ordering -/
/- ------------------------------------------------------------------ -/

/-- C3, counterexample.  The claim asserts strictly descending dates in
every per-track extraction result; extract_streams of KworbScraper keeps
the table order (and drops the sentinel rows), so a page listing dates in
ascending order yields an ascending result. -/
theorem c3_ordering_counterexample :
    kworb_extract_rows 0 1 [[str "2024/01/01", str "5"], [str "2024/01/08", str "6"]]
      = [⟨str "2024/01/01", 5⟩, ⟨str "2024/01/08", 6⟩] ∧
    lexLe (str "2024/01/08") (str "2024/01/01") = false := by
  constructor
  · decide
  · decide

/-- C3, amended.  In ChartScraper.scrape_track_history, the Total/Peak
sentinel rows always precede all dated rows, and the dated rows that follow
are in non-increasing (descending, not necessarily strictly) date order; in
KworbScraper.extract_streams, sentinel rows are dropped altogether and the
remaining rows keep the table order, with no sorting applied. -/
theorem c3_ordering (headers : List Str) (rows : List (List Str))
    (dIdx gIdx : Nat) (krows : List (List Str)) :
    (∃ pre post, scrape_track_table headers rows = pre ++ post ∧
      (∀ r ∈ pre, isSentinelDate r.date = true) ∧
      (∀ r ∈ post, isSentinelDate r.date = false) ∧
      post.Pairwise (fun a b : TrackRec => lexLe b.date a.date = true)) ∧
    (∀ r ∈ kworb_extract_rows dIdx gIdx krows,
      pyLower r.date ≠ str "total" ∧ pyLower r.date ≠ str "peak") := by
  constructor
  · rw [scrape_track_table, order_track_records]
    refine ⟨_, _, rfl, ?_, ?_, ?_⟩
    · intro r hr
      exact (List.mem_filter.mp hr).2
    · intro r hr
      have hm := (List.mem_filter.mp ((mem_insSortBy trackGe r _).mp hr)).2
      simpa using hm
    · have hp := pairwise_insSortBy trackGe
        (fun x y => lexLe_total y.date x.date)
        (fun x y z h1 h2 => lexLe_trans z.date y.date x.date h2 h1)
        ((scrape_rows headers rows).map
          (fun r => ⟨parse_date r.date, r.vals⟩) |>.filter
          (fun r => !isSentinelDate r.date))
      exact hp
  · intro r hr
    obtain ⟨cells, _, hrow⟩ := List.mem_filterMap.mp hr
    have hb := kworb_process_row_no_sentinel dIdx gIdx cells r hrow
    rw [Bool.or_eq_false_iff] at hb
    constructor
    · exact beq_eq_false_iff_ne.mp hb.1
    · exact beq_eq_false_iff_ne.mp hb.2

/-- C3, witness: a concrete per-track table with a Total row, a Peak row
and two dated rows in ascending table order is returned with the sentinels
first and the dated rows descending. -/
theorem c3_ordering_witness :
    scrape_track_table [str "Date", str "Global"]
        [[str "2024/01/01", str "5"], [str "Total", str "99"],
         [str "2024/01/08", str "6"], [str "Peak", str "7"]]
      = [⟨str "Total", [(str "Global", some 99)]⟩,
         ⟨str "Peak", [(str "Global", some 7)]⟩,
         ⟨str "2024/01/08", [(str "Global", some 6)]⟩,
         ⟨str "2024/01/01", [(str "Global", some 5)]⟩] ∧
    (∀ r ∈ kworb_extract_rows 0 1 [[str "Total", str "9"], [str "2024/01/01", str "5"]],
      pyLower r.date ≠ str "total" ∧ pyLower r.date ≠ str "peak") := by
  constructor
  · decide
  · exact (c3_ordering [str "Date", str "Global"] [] 0 1
      [[str "Total", str "9"], [str "2024/01/01", str "5"]]).2

/- ------------------------------------------------------------------ -/
/- C10: available-week discovery -/
/- ------------------------------------------------------------------ -/

/-- C10, confirmed.  Every completed run of discover available weeks
returns a non-empty ascending list, and when no link text parses as a date
it returns exactly the current-date singleton. -/
theorem c10_discover_weeks (linkTexts : List Str) (now : Nat) :
    discover_available_weeks linkTexts now ≠ [] ∧
    (discover_available_weeks linkTexts now).Pairwise (fun a b => a ≤ b) ∧
    (linkTexts.filterMap (fun l => (parseYMDparts (pyStrip l)).map dateEnc) = [] →
      discover_available_weeks linkTexts now = [now]) := by
  refine ⟨?_, ?_, ?_⟩
  · rw [discover_available_weeks]
    intro h
    have hlen := congrArg List.length h
    rw [length_insSortBy] at hlen
    by_cases he : (linkTexts.filterMap
        (fun l => (parseYMDparts (pyStrip l)).map dateEnc)).isEmpty = true
    · rw [if_pos he] at hlen
      exact Nat.noConfusion hlen
    · rw [if_neg he] at hlen
      rw [Bool.not_eq_true, List.isEmpty_eq_false_iff_exists_mem] at he
      obtain ⟨x, hx⟩ := he
      rw [List.length_nil, List.length_eq_zero] at hlen
      rw [hlen] at hx
      exact absurd hx (List.not_mem_nil x)
  · exact List.Pairwise.imp
      (fun h => by simpa [natLeB] using h)
      (pairwise_insSortBy natLeB
        (fun x y => by simp only [natLeB, decide_eq_true_eq]; omega)
        (fun x y z h1 h2 => by
          simp only [natLeB, decide_eq_true_eq] at h1 h2 ⊢
          omega) _)
  · intro h
    rw [discover_available_weeks, h]
    rfl

/-- C10, witness: a link list with no parseable date falls back to the
current date, and a parseable pair comes back sorted ascending. -/
theorem c10_discover_weeks_witness :
    discover_available_weeks [str "junk"] 20230101 = [20230101] :=
  (c10_discover_weeks [str "junk"] 20230101).2.2 (by decide)

theorem enumFrom_keys (cells : List Str) : ∀ (n : Nat) (headers : List Str),
    ((List.enumFrom n headers).filterMap (fun p =>
        if p.2 = str "Date" then none
        else some (p.2, parse_number ((cells[p.1]?).getD [])))).map Prod.fst
      = headers.filter (fun h => !(h == str "Date")) := by
  intro n headers
  induction headers generalizing n with
  | nil => rfl
  | cons h hs ih =>
    by_cases hD : h = str "Date" <;>
      simp [List.enumFrom_cons, List.filterMap_cons, List.filter_cons, hD, ih]

theorem trackRowVals_keys (headers cells : List Str) :
    (trackRowVals headers cells).map Prod.fst
      = headers.filter (fun h => !(h == str "Date")) :=
  enumFrom_keys cells 0 headers

/- ------------------------------------------------------------------ -/
/- C2: row acceptance and key-set uniformity -/
/- ------------------------------------------------------------------ -/

/-- C2, counterexample.  The claim requires a row to be accepted only when
its cell count equals the header count; scrape_track_history only drops
rows with FEWER cells than headers (lines 521-523), so this row with three
cells against two headers is accepted, with the extra cell ignored. -/
theorem c2_row_acceptance_counterexample :
    processRow [str "Date", str "Global"] 0 [str "2024/01/01", str "5", str "6"]
      = some ⟨str "2024/01/01", [(str "Global", some 5)]⟩ ∧
    ¬ ([str "2024/01/01", str "5", str "6"] : List Str).length
        = ([str "Date", str "Global"] : List Str).length := by
  constructor
  · decide
  · decide

/-- C2, amended.  A data row is accepted into the output if and only if its
cell count is at least the header count and the date cell position exists;
rows with fewer cells (or a missing date cell) are dropped entirely, never
partially populated, extra cells beyond the headers are ignored, and every
accepted record carries exactly the non-Date headers as its column keys. -/
theorem c2_row_acceptance (headers : List Str) (dIdx : Nat) (cells : List Str) :
    ((processRow headers dIdx cells).isSome = true ↔
      headers.length ≤ cells.length ∧ dIdx < cells.length) ∧
    (∀ r, processRow headers dIdx cells = some r →
      r.vals.map Prod.fst = headers.filter (fun h => !(h == str "Date"))) := by
  constructor
  · rw [processRow]
    by_cases hlen : cells.length < headers.length
    · rw [if_pos hlen]
      simp only [Option.isSome_none, Bool.false_eq_true, false_iff]
      rintro ⟨h1, _⟩
      omega
    · rw [if_neg hlen]
      cases hidx : cells[dIdx]? with
      | none =>
        show (none : Option TrackRec).isSome = true ↔ _
        simp only [Option.isSome_none, Bool.false_eq_true, false_iff]
        rintro ⟨_, h2⟩
        have hsome := List.getElem?_eq_some.mpr ⟨h2, rfl⟩
        rw [hidx] at hsome
        exact Option.noConfusion hsome
      | some dv =>
        show (some (⟨dv, trackRowVals headers cells⟩ : TrackRec)).isSome = true ↔ _
        simp only [Option.isSome_some, true_iff]
        exact ⟨by omega, (List.getElem?_eq_some.mp hidx).1⟩
  · intro r hr
    rw [processRow] at hr
    split at hr
    · exact Option.noConfusion hr
    · split at hr
      · exact Option.noConfusion hr
      · rename_i dv hdv
        obtain rfl := Option.some_injective _ hr
        exact trackRowVals_keys headers cells

/-- C2, witness: a well-formed two-cell row against two headers is
accepted, carrying exactly the key Global. -/
theorem c2_row_acceptance_witness :
    (processRow [str "Date", str "Global"] 0 [str "2024/01/01", str "5"]).isSome = true :=
  ((c2_row_acceptance [str "Date", str "Global"] 0 [str "2024/01/01", str "5"]).1).mpr
    ⟨by decide, by decide⟩

/- ------------------------------------------------------------------ -/
/- C7: missing-header handling -/
/- ------------------------------------------------------------------ -/

/-- C7, counterexample.  The claim states that an extraction with no header
cells fails without reading data rows; scrape_track_history instead falls
back to date idx = 0 (lines 507-511) and keeps extracting: with an empty
header list it still returns a record built from the first cell. -/
theorem c7_missing_headers_counterexample :
    scrape_rows [] [[str "2024/01/01"]] = [⟨str "2024/01/01", []⟩] ∧
    find_date_idx [] = 0 := by
  constructor
  · decide
  · rfl

/-- C7, amended.  In KworbScraper.extract_streams a header list missing
Date or Global fails the attempt with the typed required-columns error
(in particular an empty header list); in ChartScraper.scrape_track_history
missing headers do NOT fail the extraction: the first column is guessed to
be the date and each row becomes a record of its first cell with no other
keys. -/
theorem c7_missing_headers :
    (∀ headers : List Str, (¬ str "Date" ∈ headers ∨ ¬ str "Global" ∈ headers) →
      kworb_header_check headers
        = Except.error (str "Required columns not found in table")) ∧
    (∀ rows : List (List Str), scrape_rows [] rows
        = rows.filterMap (fun cells => (cells[0]?).map
            (fun dv => (⟨dv, []⟩ : TrackRec)))) := by
  constructor
  · intro headers hmem
    rw [kworb_header_check]
    rcases hmem with hD | hG
    · have hnone : headers.findIdx? (fun h => h == str "Date") = none := by
        rw [List.findIdx?_eq_none_iff]
        intro x hx
        rw [beq_eq_false_iff_ne]
        rintro rfl
        exact hD hx
      rw [hnone]
    · have hnone : headers.findIdx? (fun h => h == str "Global") = none := by
        rw [List.findIdx?_eq_none_iff]
        intro x hx
        rw [beq_eq_false_iff_ne]
        rintro rfl
        exact hG hx
      rw [hnone]
      cases headers.findIdx? (fun h => h == str "Date") with
      | none => rfl
      | some d => rfl
  · intro rows
    rw [scrape_rows]
    congr 1
    funext cells
    have hidx0 : find_date_idx ([] : List Str) = 0 := rfl
    rw [processRow, hidx0, if_neg (by simp)]
    cases h0 : cells[0]? with
    | none => rfl
    | some dv => rfl

/-- C7, witness: a header row lacking the Date column makes the kworb
extractor fail with the typed error. -/
theorem c7_missing_headers_witness :
    kworb_header_check [str "Datum"]
      = Except.error (str "Required columns not found in table") :=
  c7_missing_headers.1 [str "Datum"] (Or.inl (by decide))

theorem exceptOk_false {ε α : Type} (x : Except ε α) (h : exceptOk x = false) :
    ∃ e, x = Except.error e := by
  cases x with
  | ok a => simp [exceptOk] at h
  | error e => exact ⟨e, rfl⟩

theorem retryGo_success {α : Type} (fn : Nat → Except Str α) :
    ∀ (k n used : Nat) (a : α), k < n →
      (∀ i, i < k → exceptOk (fn (used + i)) = false) →
      fn (used + k) = Except.ok a →
      retryGo fn n used = (some a, used + k + 1) := by
  intro k
  induction k with
  | zero =>
    intro n used a hk hfail hsucc
    obtain ⟨m, rfl⟩ : ∃ m, n = m + 1 := ⟨n - 1, by omega⟩
    rw [Nat.add_zero] at hsucc
    rw [retryGo, hsucc]
  | succ k ih =>
    intro n used a hk hfail hsucc
    obtain ⟨m, rfl⟩ : ∃ m, n = m + 1 := ⟨n - 1, by omega⟩
    obtain ⟨e, he⟩ := exceptOk_false _ (hfail 0 (by omega))
    rw [Nat.add_zero] at he
    rw [retryGo, he]
    show retryGo fn m (used + 1) = (some a, used + (k + 1) + 1)
    have h1 : ∀ i, i < k → exceptOk (fn (used + 1 + i)) = false := by
      intro i hi
      have h2 := hfail (i + 1) (by omega)
      rwa [show used + (i + 1) = used + 1 + i by omega] at h2
    have h3 : fn (used + 1 + k) = Except.ok a := by
      rwa [show used + (k + 1) = used + 1 + k by omega] at hsucc
    have h4 := ih m (used + 1) a (by omega) h1 h3
    rwa [show used + 1 + k + 1 = used + (k + 1) + 1 by omega] at h4

theorem retryGo_exhaust {α : Type} (fn : Nat → Except Str α) :
    ∀ (n used : Nat), (∀ i, i < n → exceptOk (fn (used + i)) = false) →
      retryGo fn n used = (none, used + n) := by
  intro n
  induction n with
  | zero =>
    intro used _
    simp [retryGo]
  | succ m ih =>
    intro used hfail
    obtain ⟨e, he⟩ := exceptOk_false _ (hfail 0 (by omega))
    rw [Nat.add_zero] at he
    rw [retryGo, he]
    show retryGo fn m (used + 1) = (none, used + (m + 1))
    have h1 : ∀ i, i < m → exceptOk (fn (used + 1 + i)) = false := by
      intro i hi
      have h2 := hfail (i + 1) (by omega)
      rwa [show used + (i + 1) = used + 1 + i by omega] at h2
    have h3 := ih (used + 1) h1
    rwa [show used + 1 + m = used + (m + 1) by omega] at h3

/- ------------------------------------------------------------------ -/
/- C4: retry budget and non-raising exhaustion -/
/- ------------------------------------------------------------------ -/

/-- C4, confirmed.  With a budget of max attempts: when the attempt
function fails the first k times (k below the budget) and then succeeds,
the driver returns the data having used exactly k+1 attempts; when every
attempt within the budget fails, the driver returns the typed None outcome
after exactly max attempts, never propagating an exception (the result
type of the model has no exceptional channel: every attempt error is
consumed by the loop). -/
theorem c4_retry_budget {α : Type} (attemptFn : Nat → Except Str α)
    (max_attempts : Nat) :
    (∀ k a, k < max_attempts →
      (∀ i, i < k → exceptOk (attemptFn i) = false) →
      attemptFn k = Except.ok a →
      extract_streams_retry attemptFn max_attempts = (some a, k + 1)) ∧
    ((∀ i, i < max_attempts → exceptOk (attemptFn i) = false) →
      extract_streams_retry attemptFn max_attempts = (none, max_attempts)) := by
  constructor
  · intro k a hk hfail hsucc
    have h := retryGo_success attemptFn k max_attempts 0 a hk
      (by intro i hi; simpa using hfail i hi) (by simpa using hsucc)
    simpa using h
  · intro hfail
    have h := retryGo_exhaust attemptFn max_attempts 0
      (by intro i hi; simpa using hfail i hi)
    simpa using h

/-- C4, witness: an attempt function that fails once then succeeds returns
the data at the second attempt under a budget of three. -/
theorem c4_retry_budget_witness :
    extract_streams_retry
        (fun i => if i = 0 then Except.error (str "locator miss") else Except.ok 7) 3
      = (some 7, 2) :=
  (c4_retry_budget (fun i => if i = 0 then Except.error (str "locator miss")
      else Except.ok 7) 3).1 1 7 (by omega)
    (by
      intro i hi
      have h0 : i = 0 := by omega
      subst h0
      rfl)
    (by rfl)

/- ------------------------------------------------------------------ -/
/- C5: per-date skipping and fatal no-data error -/
/- ------------------------------------------------------------------ -/

/-- C5, confirmed.  A date whose extraction fails is skipped without
affecting the rest of the range (removing it leaves the orchestration
unchanged); when every date fails, the orchestrator signals the fatal
no-data error rather than returning an empty aggregate; and when at least
one date succeeds it returns the merged aggregate of the surviving dates. -/
theorem c5_range_errors (extract : Nat → Option Batch) :
    (∀ pre post bad, extract bad = none →
      scrape_date_range_model extract (pre ++ bad :: post)
        = scrape_date_range_model extract (pre ++ post)) ∧
    (∀ dates, (∀ d ∈ dates, extract d = none) →
      scrape_date_range_model extract dates
        = Except.error (str "No data scraped for the specified date range")) ∧
    (∀ dates, (∃ d ∈ dates, (extract d).isSome = true) →
      scrape_date_range_model extract dates
        = Except.ok (scrape_date_range_merge (dates.filterMap extract))) := by
  refine ⟨?_, ?_, ?_⟩
  · intro pre post bad hbad
    rw [scrape_date_range_model, scrape_date_range_model,
      List.filterMap_append, List.filterMap_append, List.filterMap_cons, hbad]
  · intro dates hall
    have h0 : dates.filterMap extract = [] := List.filterMap_eq_nil_iff.mpr hall
    rw [scrape_date_range_model, h0]
    rfl
  · rintro dates ⟨d, hd, hsome⟩
    obtain ⟨b, hb⟩ := Option.isSome_iff_exists.mp hsome
    have hmem : b ∈ dates.filterMap extract := List.mem_filterMap.mpr ⟨d, hd, hb⟩
    rw [scrape_date_range_model, if_neg]
    intro he
    rw [List.isEmpty_iff] at he
    rw [he] at hmem
    exact absurd hmem (List.not_mem_nil b)

/-- C5, witness: with a three-date range whose middle date always fails,
the orchestration equals the one over the two surviving dates, and a range
where every date fails raises the fatal error. -/
theorem c5_range_errors_witness :
    (scrape_date_range_model
        (fun d => if d = 2 then none else some ⟨[str "chart_date"], []⟩) [1, 2, 3]
      = scrape_date_range_model
        (fun d => if d = 2 then none else some ⟨[str "chart_date"], []⟩) [1, 3]) ∧
    scrape_date_range_model (fun _ => (none : Option Batch)) [1, 2, 3]
      = Except.error (str "No data scraped for the specified date range") := by
  constructor
  · exact (c5_range_errors (fun d => if d = 2 then none
      else some ⟨[str "chart_date"], []⟩)).1 [1] [3] 2 (by rfl)
  · exact (c5_range_errors (fun _ => (none : Option Batch))).2.1 [1, 2, 3]
      (by intro d _; rfl)

/- ------------------------------------------------------------------ -/
/- C8: ordered multi-strategy locator resolution -/
/- ------------------------------------------------------------------ -/

/-- C8, confirmed.  The locator resolver tries strategies in list order:
when every strategy before l fails and l matches element e, the result is e
regardless of the strategies after l (they are never consulted); and when
every strategy of the chain fails, the result is the typed not-found value
none, not an exception. -/
theorem c8_locator_chain {α β : Type} (tryLocator : α → Option β) :
    (∀ (pre : List α) (l : α) (post : List α) (e : β),
      (∀ x ∈ pre, tryLocator x = none) → tryLocator l = some e →
      wait_for_element tryLocator (pre ++ l :: post) = some e) ∧
    (∀ chain : List α, (∀ x ∈ chain, tryLocator x = none) →
      wait_for_element tryLocator chain = none) := by
  constructor
  · intro pre
    induction pre with
    | nil =>
      intro l post e _ hl
      rw [List.nil_append, wait_for_element, hl]
    | cons p ps ih =>
      intro l post e hpre hl
      rw [List.cons_append, wait_for_element, hpre p (by simp)]
      show wait_for_element tryLocator (ps ++ l :: post) = some e
      exact ih l post e (fun x hx => hpre x (by simp [hx])) hl
  · intro chain
    induction chain with
    | nil =>
      intro _
      rfl
    | cons c cs ih =>
      intro hall
      rw [wait_for_element, hall c (by simp)]
      show wait_for_element tryLocator cs = none
      exact ih (fun x hx => hall x (by simp [hx]))

/-- C8, witness: in a three-strategy chain where only the middle strategy
matches, the resolver returns its element. -/
theorem c8_locator_chain_witness :
    wait_for_element (fun n : Nat => if n = 2 then some n else none) [1, 2, 3]
      = some 2 :=
  (c8_locator_chain (fun n : Nat => if n = 2 then some n else none)).1
    [1] 2 [3] 2
    (by
      intro x hx
      have h1 : x = 1 := by simpa using hx
      subst h1
      rfl)
    (by rfl)

/- ------------------------------------------------------------------ -/
/- C6: schema normalization of the merged aggregate -/
/- ------------------------------------------------------------------ -/

/-- C6, counterexample.  The claim asserts that every market code present
in some batch appears as a column of the final aggregate; the final
reindexing combined df[column order] keeps only the fixed pre-declared
schema, so a batch column FR outside it is dropped from the merge. -/
theorem c6_rectangular_counterexample :
    str "FR" ∈ (Batch.mk [str "chart_date", str "FR"] [[Cell.null, Cell.intVal 7]]).cols ∧
    str "FR" ∉ (scrape_date_range_merge
        [⟨[str "chart_date", str "FR"], [[Cell.null, Cell.intVal 7]]⟩]).cols := by
  constructor
  · decide
  · decide

/-- C6, amended.  The merged aggregate always carries exactly the fixed
pre-declared column set (chart date plus the 21 hard-coded market codes),
so the final table is rectangular with every row of that width; market
codes of the fixed set missing from a batch are filled with null in that
batch's rows (as the concrete two-batch Global/US vs Global/GB example
shows), while market codes outside the fixed set are dropped. -/
theorem c6_rectangular (batches : List Batch) :
    ((scrape_date_range_merge batches).cols = column_order ∧
      ∀ r ∈ (scrape_date_range_merge batches).rows, r.length = column_order.length) ∧
    scrape_date_range_merge
        [⟨[str "chart_date", str "Global", str "US"],
          [[Cell.strVal (str "d1"), Cell.intVal 1, Cell.intVal 2]]⟩,
         ⟨[str "chart_date", str "Global", str "GB"],
          [[Cell.strVal (str "d2"), Cell.intVal 3, Cell.intVal 4]]⟩]
      = ⟨column_order,
         [[Cell.strVal (str "d1"), Cell.intVal 1, Cell.intVal 2]
            ++ List.replicate 19 Cell.null,
          [Cell.strVal (str "d2"), Cell.intVal 3, Cell.null, Cell.null, Cell.intVal 4]
            ++ List.replicate 17 Cell.null]⟩ := by
  refine ⟨⟨rfl, ?_⟩, by decide⟩
  intro r hr
  simp only [scrape_date_range_merge, selectCols] at hr
  obtain ⟨row, _, rfl⟩ := List.mem_map.mp hr
  rw [List.length_map]

/-- C6, witness: the merge of an empty batch list still has the fixed
schema. -/
theorem c6_rectangular_witness :
    (scrape_date_range_merge []).cols = column_order :=
  ((c6_rectangular []).1).1

theorem track_id_valid_iff (t : Str) : track_id_valid t = true ↔ specTokenOK t := by
  rw [track_id_valid, pyIsAlnum, Bool.and_eq_true, Bool.not_eq_true',
    List.isEmpty_eq_false_iff_exists_mem, List.all_eq_true, specTokenOK]
  constructor
  · rintro ⟨⟨c, hc⟩, hall⟩
    obtain ⟨hct, hcp⟩ := List.mem_filter.mp hc
    refine ⟨⟨c, hct, by simpa using hcp⟩, ?_⟩
    intro d hd
    by_cases hdd : d = '-'
    · exact Or.inr hdd
    · exact Or.inl (hall d (List.mem_filter.mpr ⟨hd, by simpa using hdd⟩))
  · rintro ⟨⟨c, hct, hcd⟩, hall⟩
    refine ⟨⟨c, List.mem_filter.mpr ⟨hct, by simpa using hcd⟩⟩, ?_⟩
    intro d hd
    obtain ⟨hdt, hdp⟩ := List.mem_filter.mp hd
    rcases hall d hdt with h | h
    · exact h
    · exact absurd h (by simpa using hdp)

/- ------------------------------------------------------------------ -/
/- C9: track-identifier extraction and validation -/
/- ------------------------------------------------------------------ -/

/-- C9, confirmed.  The scrape proceeds to fetch if and only if the input
is non-empty and the extracted token is alphanumeric with optional hyphens
(with at least one alphanumeric character); a failing input yields the
empty-result path without fetching.  The bare token is cut out of a full
spotify URL, a URI-style reference, a kworb URL, or taken as given. -/
theorem c9_track_id (input : Str) :
    ((scrape_track_gate input).isSome = true ↔
      input ≠ [] ∧ specTokenOK (clean_track_id input)) ∧
    clean_track_id (str "https://open.spotify.com/track/3n3Ppam7vgaVa1iaRUc9Lp?si=abc")
      = str "3n3Ppam7vgaVa1iaRUc9Lp" ∧
    clean_track_id (str "spotify:track:3n3Ppam7vgaVa1iaRUc9Lp")
      = str "3n3Ppam7vgaVa1iaRUc9Lp" ∧
    clean_track_id (str "https://kworb.net/spotify/track/3n3Ppam7vgaVa1iaRUc9Lp.html")
      = str "3n3Ppam7vgaVa1iaRUc9Lp" ∧
    clean_track_id (str "3n3Ppam7vgaVa1iaRUc9Lp") = str "3n3Ppam7vgaVa1iaRUc9Lp" ∧
    extract_track_id_app (str "spotify:track:3n3Ppam7vgaVa1iaRUc9Lp")
      = str "3n3Ppam7vgaVa1iaRUc9Lp" ∧
    extract_track_id_app (str "not a valid id!") = [] := by
  refine ⟨?_, by decide, by decide, by decide, by decide, by decide, by decide⟩
  rw [scrape_track_gate]
  by_cases he : input.isEmpty = true
  · rw [if_pos he]
    rw [List.isEmpty_iff] at he
    simp [he]
  · rw [if_neg he]
    have hne : input ≠ [] := fun h => he (List.isEmpty_iff.mpr h)
    by_cases hv : track_id_valid (clean_track_id input) = true
    · rw [if_pos hv]
      simp only [Option.isSome_some, true_iff]
      exact ⟨hne, (track_id_valid_iff _).mp hv⟩
    · rw [if_neg hv]
      simp only [Option.isSome_none, Bool.false_eq_true, false_iff]
      rintro ⟨_, hspec⟩
      exact hv ((track_id_valid_iff _).mpr hspec)

/-- C9, witness: a bare valid token passes the gate. -/
theorem c9_track_id_witness :
    (scrape_track_gate (str "3n3Ppam7vgaVa1iaRUc9Lp")).isSome = true :=
  ((c9_track_id (str "3n3Ppam7vgaVa1iaRUc9Lp")).1).mpr
    ⟨by decide, by rw [specTokenOK]; exact ⟨by decide, by decide⟩⟩
